import Mathlib

/-!
Verification of the tabular ingestion / normalization engine of the
`studio` repository (`src/lib/task-utils.ts`, second and latest variant of
the file, together with the header configuration in `src/config/app-config.ts`).

The TypeScript code is shallowly embedded: JavaScript strings are Lean
`String`s (manipulated through their underlying `List Char`), a JavaScript
`Date` is represented by its local calendar components (the embedding fixes
the host timezone so that local time and UTC coincide), and the
`Date | string` union stored in task records is the inductive `DateValue`.
`new Date(string)` — whose behaviour outside the ECMAScript Date Time String
Format is implementation-defined — is modelled by the date-only forms of that
format, with every other string mapped to an invalid date (`none`).
-/

namespace Studio

/-! ## Character and string utilities (JavaScript primitive semantics) -/

/-- Whitespace recognised by `String.prototype.trim` (ASCII subset: space,
tab, line feed, carriage return, vertical tab, form feed; the Unicode
space separators do not occur in any input considered here). -/
def isWsB (c : Char) : Bool :=
  c.toNat == 32 || c.toNat == 9 || c.toNat == 10 || c.toNat == 13 ||
  c.toNat == 11 || c.toNat == 12

def isDigitB (c : Char) : Bool :=
  decide (48 ≤ c.toNat) && decide (c.toNat ≤ 57)

/-- `String.prototype.trim`. -/
def trimChars (l : List Char) : List Char :=
  ((l.dropWhile isWsB).reverse.dropWhile isWsB).reverse

/-- `String.prototype.toUpperCase` (ASCII; all header variants are ASCII). -/
def toUpperChars (l : List Char) : List Char :=
  l.map Char.toUpper

/-- `String.prototype.split(sep)` for a one-character separator:
`"".split(",") = [""]`, `"a,".split(",") = ["a", ""]`. -/
def splitOnChar (sep : Char) : List Char → List (List Char)
  | [] => [[]]
  | c :: cs =>
    if c == sep then [] :: splitOnChar sep cs
    else
      match splitOnChar sep cs with
      | [] => [[c]]
      | h :: t => (c :: h) :: t

/-- `text.split(/\r?\n/)`: a lone `\r` is not a separator. -/
def splitLinesChars : List Char → List (List Char)
  | [] => [[]]
  | '\r' :: '\n' :: cs => [] :: splitLinesChars cs
  | '\n' :: cs => [] :: splitLinesChars cs
  | c :: cs =>
    match splitLinesChars cs with
    | [] => [[c]]
    | h :: t => (c :: h) :: t

/-- Decimal digits, fuel-based so that the kernel can evaluate it. -/
def natDigitsGo : Nat → Nat → List Char
  | 0, _ => []
  | fuel + 1, n =>
    if n < 10 then [Nat.digitChar n]
    else natDigitsGo fuel (n / 10) ++ [Nat.digitChar (n % 10)]

/-- Decimal digits of a natural number, most significant first. -/
def natDigits (n : Nat) : List Char := natDigitsGo (n + 1) n

/-- Numeric value of a digit string (`parseInt` / date-fns `parseNDigits`
on an all-digit string). -/
def digitsToNat (l : List Char) : Nat :=
  l.foldl (fun a c => 10 * a + (c.toNat - 48)) 0

/-- date-fns `addLeadingZeros`: left-pad with `'0'` up to the target length. -/
def padLeft (k : Nat) (l : List Char) : List Char :=
  List.replicate (k - l.length) '0' ++ l

def allDigits (l : List Char) : Bool := l.all isDigitB

/-- `Array.prototype.join(sep)`. -/
def joinWith (sep : String) : List String → String
  | [] => ""
  | [x] => x
  | x :: y :: xs => x ++ sep ++ joinWith sep (y :: xs)

/-- Does `hay` start with `needle`? -/
def leadsWith : List Char → List Char → Bool
  | [], _ => true
  | _ :: _, [] => false
  | a :: as, b :: bs => a == b && leadsWith as bs

/-- Does `hay` contain `needle` as a contiguous substring? -/
def hasSub (needle : List Char) : List Char → Bool
  | [] => leadsWith needle []
  | c :: cs => leadsWith needle (c :: cs) || hasSub needle cs

/-! ## Calendar dates -/

/-- A JavaScript `Date`, represented by its calendar components in the
(fixed) host timezone.  Time-of-day components are irrelevant to every
function under verification (`format(-, 'dd/MM/yyyy')` and the parsers
compare only year/month/day) and are omitted. -/
structure JSDate where
  year : Int
  month : Nat
  day : Nat
deriving Repr, DecidableEq

/-- JavaScript / date-fns leap-year rule (proleptic Gregorian). -/
def isLeapYear (y : Int) : Bool :=
  y % 4 == 0 && (y % 100 != 0 || y % 400 == 0)

/-- The date-fns `DAYS_IN_MONTH` / `DAYS_IN_MONTH_LEAP_YEAR` tables (indexed
here by the 1-based calendar month; 0 outside 1..12, which only ever feeds a
failing range check). -/
def daysInMonth (y : Int) (m : Nat) : Nat :=
  match m with
  | 1 => 31
  | 2 => if isLeapYear y then 29 else 28
  | 3 => 31
  | 4 => 30
  | 5 => 31
  | 6 => 30
  | 7 => 31
  | 8 => 31
  | 9 => 30
  | 10 => 31
  | 11 => 30
  | 12 => 31
  | _ => 0

/-- Valid calendar date (the invariant of a `Concrete` DateValue). -/
def validYMD (y : Int) (m d : Nat) : Bool :=
  decide (1 ≤ m) && decide (m ≤ 12) && decide (1 ≤ d) && decide (d ≤ daysInMonth y m)

def JSDate.validB (d : JSDate) : Bool := validYMD d.year d.month d.day

/-- date-fns format token `y`/`yyyy` renders the era year: year 0 (1 BC)
renders as 1, year -1 as 2, and so on. -/
def eraYear (y : Int) : Nat := (if y > 0 then y else 1 - y).toNat

/-- date-fns `format(d, 'dd/MM/yyyy')` (character list form). -/
def formatDDMMYYYYChars (d : JSDate) : List Char :=
  padLeft 2 (natDigits d.day) ++ '/' ::
    (padLeft 2 (natDigits d.month) ++ '/' :: padLeft 4 (natDigits (eraYear d.year)))

def formatDDMMYYYY (d : JSDate) : String := String.mk (formatDDMMYYYYChars d)

/-! ## `parseCustomDateString` (task-utils.ts, exported variant)

The source tries, in order: a sentinel check, `parse(-, 'dd/MM/yyyy')`,
`parse(-, 'dd/MM/yy')`, `parseISO` with a manual `Date.UTC` fallback, and
finally the lenient `new Date(string)` constructor.  Each regular-expression
shape test is embedded as a comma-free structural test on the split pieces. -/

/-- The early-return sentinel test of `parseCustomDateString`:
`trimmed.toUpperCase() === '#VALUE!' || trimmed === '-' || trimmed === '' ||
["Data no especificada", "Data Desconeguda", "N/A"].includes(trimmed)`. -/
def sentinelB (t : List Char) : Bool :=
  toUpperChars t == "#VALUE!".data || t == "-".data || t == [] ||
  t == "Data no especificada".data || t == "Data Desconeguda".data || t == "N/A".data

/-- date-fns `parse(str, 'dd/MM/(yy)yy', ref)` after the year token has been
resolved: month is validated against 1..12, then the day against the length
of that month in that year; on success the date is built from the parts. -/
def dateFnsParseDMY (day month : Nat) (year : Int) : Option JSDate :=
  if validYMD year month day then some ⟨year, month, day⟩ else none

/-- Regex `^\d{1,2}\/\d{1,2}\/\d{4}$` followed by `parse(-, 'dd/MM/yyyy')`. -/
def tryDDMMYYYY (t : List Char) : Option JSDate :=
  match splitOnChar '/' t with
  | [a, b, c] =>
    if 1 ≤ a.length ∧ a.length ≤ 2 ∧ allDigits a ∧
        1 ≤ b.length ∧ b.length ≤ 2 ∧ allDigits b ∧
        c.length = 4 ∧ allDigits c then
      dateFnsParseDMY (digitsToNat a) (digitsToNat b) ((digitsToNat c : Int))
    else none
  | _ => none

/-- date-fns `normalizeTwoDigitYear`, with the reference year taken from
`new Date()` at call time (the `referenceDate`).  `Math.floor` on the
positive `rangeEnd` is integer division. -/
def normalizeTwoDigitYear (refYear : Int) (ty : Nat) : Int :=
  let isCommonEra := refYear > 0
  let absCurrentYear : Int := if isCommonEra then refYear else 1 - refYear
  let result : Int :=
    if absCurrentYear ≤ 50 then (if ty = 0 then 100 else (ty : Int))
    else
      let rangeEnd := absCurrentYear + 50
      let rangeEndCentury := (rangeEnd / 100) * 100
      let isPreviousCentury := (ty : Int) ≥ rangeEnd % 100
      (ty : Int) + rangeEndCentury - (if isPreviousCentury then 100 else 0)
  if isCommonEra then result else 1 - result

/-- Regex `^\d{1,2}\/\d{1,2}\/\d{2}$` followed by `parse(-, 'dd/MM/yy', now)`. -/
def tryDDMMYY (refYear : Int) (t : List Char) : Option JSDate :=
  match splitOnChar '/' t with
  | [a, b, c] =>
    if 1 ≤ a.length ∧ a.length ≤ 2 ∧ allDigits a ∧
        1 ≤ b.length ∧ b.length ≤ 2 ∧ allDigits b ∧
        c.length = 2 ∧ allDigits c then
      dateFnsParseDMY (digitsToNat a) (digitsToNat b)
        (normalizeTwoDigitYear refYear (digitsToNat c))
    else none
  | _ => none

/-- Regex `^\d{4}-\d{1,2}-\d{1,2}$`, then `parseISO` (which requires
two-digit month and day and validates the calendar), then the manual
`Date.UTC(year, month-1, day)` reconstruction whose year/month/day
round-trip check succeeds exactly for a valid calendar combination. -/
def tryISO (t : List Char) : Option JSDate :=
  match splitOnChar '-' t with
  | [a, b, c] =>
    if a.length = 4 ∧ allDigits a ∧
        1 ≤ b.length ∧ b.length ≤ 2 ∧ allDigits b ∧
        1 ≤ c.length ∧ c.length ≤ 2 ∧ allDigits c then
      let y : Int := (digitsToNat a : Int)
      let m := digitsToNat b
      let d := digitsToNat c
      if b.length = 2 ∧ c.length = 2 ∧ validYMD y m d then some ⟨y, m, d⟩
      else if validYMD y m d then some ⟨y, m, d⟩
      else none
    else none
  | _ => none

/-- `new Date(trimmedDateStr)` — the final "general parse" fallback.
Modelled by the date-only instances of the ECMAScript Date Time String
Format (`YYYY`, `YYYY-MM`, `YYYY-MM-DD`); any other string — whose parsing
ECMA-262 leaves implementation-defined — is modelled as an Invalid Date. -/
def jsNewDate (t : List Char) : Option JSDate :=
  match splitOnChar '-' t with
  | [a] =>
    if a.length = 4 ∧ allDigits a then some ⟨(digitsToNat a : Int), 1, 1⟩ else none
  | [a, b] =>
    if a.length = 4 ∧ allDigits a ∧ b.length = 2 ∧ allDigits b ∧
        1 ≤ digitsToNat b ∧ digitsToNat b ≤ 12 then
      some ⟨(digitsToNat a : Int), digitsToNat b, 1⟩
    else none
  | [a, b, c] =>
    if a.length = 4 ∧ allDigits a ∧ b.length = 2 ∧ allDigits b ∧
        c.length = 2 ∧ allDigits c ∧
        validYMD (digitsToNat a : Int) (digitsToNat b) (digitsToNat c) then
      some ⟨(digitsToNat a : Int), digitsToNat b, digitsToNat c⟩
    else none
  | _ => none

/-- `parseCustomDateString` (the exported variant of task-utils.ts).  The
`now` argument embeds the `new Date()` reference date read inside the
function; only its year is consulted (two-digit-year resolution). -/
def parseCustomDateStringC (now : JSDate) (cs : List Char) : Option JSDate :=
  if cs = [] then none
  else
    let t := trimChars cs
    if sentinelB t then none
    else
      match tryDDMMYYYY t with
      | some d => some d
      | none =>
        match tryDDMMYY now.year t with
        | some d => some d
        | none =>
          match tryISO t with
          | some d => some d
          | none => jsNewDate t

def parseCustomDateString (now : JSDate) (s : String) : Option JSDate :=
  parseCustomDateStringC now s.data

/-! ## Header configuration (app-config.ts) -/

def APP_HEADER_TERMINI : String := "#TERMINI"
def APP_HEADER_CONTENT : String := "#DOCUMENTS/ACCIONS"
def APP_HEADER_DUE_DATE : String := "#DATA A FER"

def HEADER_VARIANTS_TERMINI : List String := ["#TERMINI", "TERMINI"]
def HEADER_VARIANTS_CONTENT : List String :=
  ["#DOCUMENTS/ACCIONS", "DOCUMENTS/ACCIONS", "#DOCUMENT/ACCIONS",
   "DOCUMENT/ACCIONS", "DOCUMENT"]
def HEADER_VARIANTS_DUE_DATE : List String := ["#DATA A FER", "DATA A FER"]

/-- `cleanHeader`: trim then uppercase. -/
def cleanHeader (l : List Char) : List Char := toUpperChars (trimChars l)

def VARIANTS_TERMINI_UPPER : List (List Char) :=
  HEADER_VARIANTS_TERMINI.map (fun s => cleanHeader s.data)
def VARIANTS_CONTENT_UPPER : List (List Char) :=
  HEADER_VARIANTS_CONTENT.map (fun s => cleanHeader s.data)
def VARIANTS_DUE_DATE_UPPER : List (List Char) :=
  HEADER_VARIANTS_DUE_DATE.map (fun s => cleanHeader s.data)

/-! ## The data model -/

/-- The `Date | string` union stored in `originalDueDate` / `adjustedDate`:
either a concrete calendar date or a preserved placeholder string. -/
inductive DateValue where
  | date (d : JSDate)
  | str (s : String)
deriving Repr, DecidableEq

/-- A candidate record as produced by `parseTaskFile` (the `Partial<Task>`
literal pushed per row; fields the parser does not set are omitted). -/
structure PartialTask where
  content : String
  originalDueDate : DateValue
  terminiRaw : String
  adjustedDate : DateValue
deriving Repr, DecidableEq

/-- The due-date field computation of the extraction loop:
`parsedDate` valid ⇒ the Date, otherwise `originalDueDateStr || "Data no
especificada"`. -/
def normalizeDueDate (now : JSDate) (cs : List Char) : DateValue :=
  match parseCustomDateStringC now cs with
  | some d => DateValue.date d
  | none =>
    DateValue.str (String.mk (if cs = [] then "Data no especificada".data else cs))

/-! ## Header scan (parseTaskFile, lines 358–430) -/

/-- The mutable scan state: the three column indices (`-1` modelled as
`none`) and `maxHeaderRowIndex`. -/
structure ScanState where
  termini : Option Nat
  content : Option Nat
  dueDate : Option Nat
  maxHeaderRow : Int
deriving Repr, DecidableEq

def initScan : ScanState := ⟨none, none, none, -1⟩

def optCount : Option Nat → Nat
  | some _ => 1
  | none => 0

/-- `for (const variant of VARIANTS) { idx = cells.indexOf(variant); if (idx
!== -1) break }`: first variant (in variant order) present anywhere in the
row. -/
def findVariantCol : List (List Char) → List (List Char) → Option Nat
  | [], _ => none
  | v :: vs, cells =>
    match cells.findIdx? (· == v) with
    | some i => some i
    | none => findVariantCol vs cells

/-- One `if (xColIndex === -1) { ... }` block: an already-set index is kept
(count 0), otherwise the first matching variant fixes it (count 1). -/
def pickCol (cur : Option Nat) (variants : List (List Char))
    (cells : List (List Char)) : Option Nat × Nat :=
  match cur with
  | some c => (some c, 0)
  | none =>
    match findVariantCol variants cells with
    | some idx => (some idx, 1)
    | none => (none, 0)

/-- A line counts as blank when it trims to empty or every comma-split cell
trims to empty. -/
def blankRow (l : List Char) : Bool :=
  trimChars l == [] || (splitOnChar ',' l).all (fun c => trimChars c == [])

/-- One non-blank iteration of the header scan loop.  Returns the updated
state and whether the loop `break`s (all three headers resolved). -/
def headerScanStep (i : Nat) (line : List Char) (st : ScanState) :
    ScanState × Bool :=
  let currentCells := (splitOnChar ',' line).map trimChars
  let cellsUpper := currentCells.map cleanHeader
  let tP := pickCol st.termini VARIANTS_TERMINI_UPPER cellsUpper
  let cP := pickCol st.content VARIANTS_CONTENT_UPPER cellsUpper
  let dP := pickCol st.dueDate VARIANTS_DUE_DATE_UPPER cellsUpper
  let headersFoundInThisRow := tP.2 + cP.2 + dP.2
  let keysCount := optCount tP.1 + optCount cP.1 + optCount dP.1
  let primaryHeadersFound := optCount cP.1 + optCount dP.1
  if headersFoundInThisRow > 0 ∧ primaryHeadersFound ≥ 1 ∧
      tP.1.isSome ∧ cP.1.isSome ∧ dP.1.isSome then
    (⟨tP.1, cP.1, dP.1, (i : Int)⟩, true)
  else
    let newMax : Int :=
      if headersFoundInThisRow > 0 ∧ primaryHeadersFound ≥ 1 then
        if (i : Int) > st.maxHeaderRow ∨ headersFoundInThisRow > keysCount then
          (i : Int)
        else st.maxHeaderRow
      else st.maxHeaderRow
    (⟨tP.1, cP.1, dP.1, newMax⟩, false)

/-- The scan loop over the (at most 20) window lines, skipping blank lines
and stopping at the `break`. -/
def headerScanGo : Nat → List (List Char) → ScanState → ScanState
  | _, [], st => st
  | i, l :: rest, st =>
    if blankRow l then headerScanGo (i + 1) rest st
    else
      let p := headerScanStep i l st
      if p.2 then p.1 else headerScanGo (i + 1) rest p.1

/-- `for (let i = 0; i < Math.min(lines.length, MAX_HEADER_SCAN_LINES); i++)`
with `MAX_HEADER_SCAN_LINES = 20`. -/
def headerScan (lines : List (List Char)) : ScanState :=
  headerScanGo 0 (lines.take 20) initScan

/-! ## Extraction loop and pipeline (parseTaskFile, lines 432–503) -/

def apos : String := (Char.ofNat 39).toString

def contentMissingMsg : String :=
  "Columna Contingut no trobada (variants esperades: " ++
    joinWith ", " HEADER_VARIANTS_CONTENT ++ ")"

def dueDateMissingMsg : String :=
  "Columna Data a Fer no trobada (variants esperades: " ++
    joinWith ", " HEADER_VARIANTS_DUE_DATE ++ ")"

/-- The thrown error when critical headers are missing. -/
def missingColumnsError (contentMissing dueDateMissing : Bool) : String :=
  let msgs :=
    (if contentMissing then [contentMissingMsg] else []) ++
    (if dueDateMissing then [dueDateMissingMsg] else [])
  "No s" ++ apos ++ "han pogut trobar totes les columnes necessàries. Detalls: " ++
    joinWith "; " msgs ++
    ". Assegura" ++ apos ++
    "t que el CSV conté aquestes capçaleres a les primeres files."

/-- `row[idx]` with JavaScript out-of-bounds `undefined` (falsy, like `''`). -/
def cellAt (row : List (List Char)) (idx : Nat) : List Char := row.getD idx []

/-- `(terminiColIndex !== -1 && row[terminiColIndex]) ? trim(...) : "N/A"`. -/
def terminiCellOf (line : List Char) (tOpt : Option Nat) : List Char :=
  match tOpt with
  | some t =>
    if cellAt (splitOnChar ',' line) t ≠ [] then
      trimChars (cellAt (splitOnChar ',' line) t)
    else "N/A".data
  | none => "N/A".data

/-- `(contentColIndex !== -1 && row[contentColIndex]) ? trim(...) : ""`
(the index is known to be set at this point). -/
def contentCellOf (line : List Char) (ci : Nat) : List Char :=
  if cellAt (splitOnChar ',' line) ci ≠ [] then
    trimChars (cellAt (splitOnChar ',' line) ci)
  else []

def dueCellOf (line : List Char) (di : Nat) : List Char :=
  if cellAt (splitOnChar ',' line) di ≠ [] then
    trimChars (cellAt (splitOnChar ',' line) di)
  else []

/-- One iteration of the data-extraction loop: `none` when the row is
skipped (blank line or empty content). -/
def extractRow (now : JSDate) (tOpt : Option Nat) (ci di : Nat)
    (line : List Char) : Option PartialTask :=
  if blankRow line then none
  else
    let content := contentCellOf line ci
    if content = [] then none
    else
      let due := normalizeDueDate now (dueCellOf line di)
      some ⟨String.mk content, due, String.mk (terminiCellOf line tOpt), due⟩

def isOkB {ε α : Type} : Except ε α → Bool
  | .ok _ => true
  | .error _ => false

/-- `parseTaskFile` over the already-split lines.  `Except` models the
`throw` / return-value split of the `Promise`. -/
def parseTaskFileCore (now : JSDate) (lines : List (List Char)) :
    Except String (List PartialTask) :=
  if lines.length = 0 then .ok []
  else
    let st := headerScan lines
    match st.content, st.dueDate with
    | some ci, some di =>
      let dataStartRow : Nat :=
        if st.maxHeaderRow = -1 then 0 else (st.maxHeaderRow + 1).toNat
      if dataStartRow ≥ lines.length ∧ st.maxHeaderRow ≠ -1 then .ok []
      else .ok ((lines.drop dataStartRow).filterMap (extractRow now st.termini ci di))
    | c?, d? => .error (missingColumnsError c?.isNone d?.isNone)

def parseTaskFileLines (now : JSDate) (lines : List String) :
    Except String (List PartialTask) :=
  parseTaskFileCore now (lines.map String.data)

/-- `parseTaskFile` from the raw file text (`fileText.split(/\r?\n/)`). -/
def parseTaskFile (now : JSDate) (fileText : String) :
    Except String (List PartialTask) :=
  parseTaskFileCore now (splitLinesChars fileText.data)

/-! ## CSV export (escapeCsvCell / exportTasksToCSV, lines 575–624) -/

/-- A `Task` as read by the serializer; fields the serializer never reads
(`id`, `status`, `color`, `createdAt`) are omitted. -/
structure Task where
  content : String
  terminiRaw : String
  originalDueDate : DateValue
  adjustedDate : DateValue
deriving Repr, DecidableEq

/-- The value passed to `escapeCsvCell`: a `Date`, a string, or
`null`/`undefined`. -/
inductive CsvCell where
  | date (d : JSDate)
  | str (s : String)
  | null
deriving Repr, DecidableEq

/-- `["Data no especificada", "Data Desconeguda", "N/A"].includes(s) ||
s.toUpperCase() === "#VALUE!"`. -/
def knownPlaceholderB (s : String) : Bool :=
  s.data == "Data no especificada".data || s.data == "Data Desconeguda".data ||
  s.data == "N/A".data || toUpperChars s.data == "#VALUE!".data

def csvNeedsQuote (cs : List Char) : Bool :=
  cs.any (fun c => c == ',' || c == '\n' || c == '"')

/-- Wrap in quotes with internal quotes doubled, when the cell contains a
comma, newline or quote. -/
def csvEscape (cs : List Char) : List Char :=
  if csvNeedsQuote cs then
    '"' :: (cs.flatMap (fun c => if c == '"' then ['"', '"'] else [c])) ++ ['"']
  else cs

/-- `escapeCsvCell` (the export variant): a `Date` is formatted
`dd/MM/yyyy`; a string is kept verbatim when it is a known placeholder,
otherwise it is re-parsed with `parseCustomDateString` and re-formatted on
success; finally the quoting rule is applied. -/
def escapeCsvCellC (now : JSDate) : CsvCell → List Char
  | .null => []
  | .date d => csvEscape (formatDDMMYYYYChars d)
  | .str s =>
    let cell :=
      if knownPlaceholderB s then s.data
      else
        match parseCustomDateStringC now s.data with
        | some d => formatDDMMYYYYChars d
        | none => s.data
    csvEscape cell

def escapeCsvCell (now : JSDate) (c : CsvCell) : String :=
  String.mk (escapeCsvCellC now c)

/-- `task.originalDueDate instanceof Date ? format(-, 'dd/MM/yyyy') :
(typeof - === 'string' ? - : '')`. -/
def dueDateExportValue (t : Task) : String :=
  match t.originalDueDate with
  | .date d => formatDDMMYYYY d
  | .str s => s

def canonicalHeaderLine : String :=
  joinWith "," [APP_HEADER_TERMINI, APP_HEADER_CONTENT, APP_HEADER_DUE_DATE]

/-- One exported row: `[termini, content, dueDate].join(',')`. -/
def exportRow (now : JSDate) (t : Task) : String :=
  joinWith ","
    [escapeCsvCell now (.str t.terminiRaw),
     escapeCsvCell now (.str t.content),
     escapeCsvCell now (.str (dueDateExportValue t))]

/-- `exportTasksToCSV`: `[headerLine, ...rows].join('\n')`. -/
def exportTasksToCSV (now : JSDate) (tasks : List Task) : String :=
  joinWith "\n" (canonicalHeaderLine :: tasks.map (exportRow now))

/-! ## Spreadsheet serial numbers (spec §4.2 item 4)

No serial-number conversion exists in the source: the "serial number"
fallback of `parseCustomDateString` is the plain `new Date(string)` call
modelled by `jsNewDate`.  The conversion the spec describes is therefore
modelled from the spec for comparison. -/

/-- Proleptic-Gregorian civil date of a day number (days since 1970-01-01,
the standard civil-from-days conversion). -/
def civilFromDays (z0 : Int) : JSDate :=
  let z := z0 + 719468
  let era : Int := (if z ≥ 0 then z else z - 146096) / 146097
  let doe : Int := z - era * 146097
  let yoe : Int := (doe - doe / 1460 + doe / 36524 - doe / 146096) / 365
  let y : Int := yoe + era * 400
  let doy : Int := doe - (365 * yoe + yoe / 4 - yoe / 100)
  let mp : Int := (5 * doy + 2) / 153
  let d : Int := doy - (153 * mp + 2) / 5 + 1
  let m : Int := if mp < 10 then mp + 3 else mp - 9
  ⟨if m ≤ 2 then y + 1 else y, m.toNat, d.toNat⟩

/-- Day number of a proleptic-Gregorian civil date (inverse of
`civilFromDays`). -/
def daysFromCivil (y : Int) (m d : Nat) : Int :=
  let y1 := if m ≤ 2 then y - 1 else y
  let era := (if y1 ≥ 0 then y1 else y1 - 399) / 400
  let yoe := y1 - era * 400
  let mp : Int := (m : Int) + (if m > 2 then -3 else 9)
  let doy := (153 * mp + 2) / 5 + (d : Int) - 1
  let doe := yoe * 365 + yoe / 4 - yoe / 100 + doy
  era * 146097 + doe - 719468

/-- Modelled from the spec: "text that is purely numeric is interpreted as
days since the spreadsheet epoch (commonly December 30 1899) and converted
to a calendar date".  (The fractional time-of-day part the spec also
mentions does not affect the calendar date of an integer serial.)  No
function of the source implements this. -/
def specSerialToDate (n : Nat) : JSDate :=
  civilFromDays (daysFromCivil 1899 12 30 + n)

/-- A fixed reference `new Date()` used to close concrete statements; every
behaviour exercised at it is independent of the clock. -/
def nowRef : JSDate := ⟨2026, 10, 11⟩

/-! ## Helper lemmas: digits, padding, splitting, trimming -/

theorem digitChar_toNat {n : Nat} (h : n < 10) : (Nat.digitChar n).toNat = 48 + n := by
  interval_cases n <;> rfl

theorem digitChar_isDigit {n : Nat} (h : n < 10) : isDigitB (Nat.digitChar n) = true := by
  interval_cases n <;> rfl

theorem digitsToNat_append_digit (l : List Char) (c : Char) :
    digitsToNat (l ++ [c]) = 10 * digitsToNat l + (c.toNat - 48) := by
  simp [digitsToNat, List.foldl_append]

theorem natDigitsGo_fuel : ∀ {f1 : Nat} {n : Nat} {f2 : Nat}, n < f1 → n < f2 →
    natDigitsGo f1 n = natDigitsGo f2 n := by
  intro f1
  induction f1 with
  | zero => omega
  | succ f ih =>
    intro n f2 h1 h2
    cases f2 with
    | zero => omega
    | succ g =>
      show (if n < 10 then [Nat.digitChar n]
          else natDigitsGo f (n / 10) ++ [Nat.digitChar (n % 10)]) =
        (if n < 10 then [Nat.digitChar n]
          else natDigitsGo g (n / 10) ++ [Nat.digitChar (n % 10)])
      split
      · rfl
      · next hn =>
        rw [@ih (n / 10) g (by omega) (by omega)]

/-- The defining recurrence of `natDigits`. -/
theorem natDigits_unfold (n : Nat) :
    natDigits n = if n < 10 then [Nat.digitChar n]
      else natDigits (n / 10) ++ [Nat.digitChar (n % 10)] := by
  show natDigitsGo (n + 1) n = _
  by_cases h : n < 10
  · simp [natDigitsGo, h]
  · simp only [natDigitsGo, if_neg h]
    rw [natDigitsGo_fuel (show n / 10 < n by omega) (show n / 10 < n / 10 + 1 by omega)]
    rfl

theorem digitsToNat_natDigits (n : Nat) : digitsToNat (natDigits n) = n := by
  induction n using Nat.strong_induction_on with
  | _ n ih =>
    rw [natDigits_unfold]
    split
    · next h =>
      simp [digitsToNat, digitChar_toNat h]
    · next h =>
      rw [digitsToNat_append_digit, ih (n / 10) (Nat.div_lt_self (by omega) (by omega)),
        digitChar_toNat (Nat.mod_lt n (by omega))]
      omega

theorem natDigits_ne_nil (n : Nat) : natDigits n ≠ [] := by
  rw [natDigits_unfold]
  split <;> simp

theorem natDigits_allDigits (n : Nat) : allDigits (natDigits n) = true := by
  induction n using Nat.strong_induction_on with
  | _ n ih =>
    rw [natDigits_unfold]
    split
    · next h => simp [allDigits, digitChar_isDigit h]
    · next h =>
      simp only [allDigits, List.all_append, Bool.and_eq_true]
      exact ⟨ih (n / 10) (Nat.div_lt_self (by omega) (by omega)),
        by simp [digitChar_isDigit (Nat.mod_lt n (show 0 < 10 by omega))]⟩

theorem natDigits_length_le {k n : Nat} (h : n < 10 ^ k) (hk : 1 ≤ k) :
    (natDigits n).length ≤ k := by
  induction k generalizing n with
  | zero => omega
  | succ k ih =>
    rw [natDigits_unfold]
    split
    · simp
    · next hn =>
      rcases Nat.eq_zero_or_pos k with hk0 | hkpos
      · subst hk0
        simp at h
        omega
      · have hd : n / 10 < 10 ^ k := by
          rw [pow_succ] at h
          omega
        have := ih hd hkpos
        simp only [List.length_append, List.length_cons, List.length_nil]
        omega

theorem natDigits_length_lt {k n : Nat} (h : 10 ^ k ≤ n) :
    k + 1 ≤ (natDigits n).length := by
  induction k generalizing n with
  | zero =>
    have := List.length_pos.mpr (natDigits_ne_nil n)
    omega
  | succ k ih =>
    have h10 : 10 ≤ n := le_trans (Nat.pow_le_pow_right (by omega) (by omega) :
      (10 : Nat) ^ 1 ≤ 10 ^ (k + 1)) (by simpa using h)
    rw [natDigits_unfold]
    split
    · next hn => omega
    · next hn =>
      have hd : 10 ^ k ≤ n / 10 := by
        rw [pow_succ] at h
        omega
      have := ih hd
      simp only [List.length_append, List.length_cons, List.length_nil]
      omega

theorem padLeft_length {k : Nat} {l : List Char} (h : l.length ≤ k) :
    (padLeft k l).length = k := by
  simp [padLeft]
  omega

theorem foldl_digits_replicate_zero (m : Nat) :
    List.foldl (fun a c => 10 * a + (c.toNat - 48)) 0 (List.replicate m '0') = 0 := by
  induction m with
  | zero => rfl
  | succ m ih =>
    rw [List.replicate_succ, List.foldl_cons]
    simpa using ih

theorem digitsToNat_padLeft (k : Nat) (l : List Char) :
    digitsToNat (padLeft k l) = digitsToNat l := by
  simp only [padLeft, digitsToNat, List.foldl_append, foldl_digits_replicate_zero]

theorem padLeft_allDigits {l : List Char} (k : Nat) (h : allDigits l = true) :
    allDigits (padLeft k l) = true := by
  simp only [padLeft, allDigits, List.all_append, Bool.and_eq_true]
  refine ⟨?_, h⟩
  simp only [List.all_eq_true]
  intro c hc
  rw [List.eq_of_mem_replicate hc]
  rfl

theorem ne_of_length_ne {α : Type} {l l2 : List α} (h : l.length ≠ l2.length) :
    l ≠ l2 := fun he => h (he ▸ rfl)

theorem toUpperChars_length (l : List Char) : (toUpperChars l).length = l.length := by
  simp [toUpperChars]

theorem allDigits_not_mem {l : List Char} (h : allDigits l = true) {sep : Char}
    (hsep : isDigitB sep = false) : sep ∉ l := by
  intro hm
  have := List.all_eq_true.mp h sep hm
  rw [this] at hsep
  exact absurd hsep (by simp)

theorem isDigitB_not_ws {c : Char} (h : isDigitB c = true) : isWsB c = false := by
  simp only [isDigitB, Bool.and_eq_true, decide_eq_true_eq] at h
  simp only [isWsB, Bool.or_eq_false_iff, beq_eq_false_iff_ne]
  omega

theorem dropWhile_eq_self_of_all {p : Char → Bool} {l : List Char}
    (h : ∀ c ∈ l, p c = false) : l.dropWhile p = l := by
  cases l with
  | nil => rfl
  | cons c cs =>
    rw [List.dropWhile_cons, if_neg]
    simp [h c (List.mem_cons_self c cs)]

theorem trimChars_eq_self {l : List Char} (h : ∀ c ∈ l, isWsB c = false) :
    trimChars l = l := by
  unfold trimChars
  rw [dropWhile_eq_self_of_all h,
    dropWhile_eq_self_of_all (fun c hc => h c (List.mem_reverse.mp hc)),
    List.reverse_reverse]

theorem splitOnChar_not_mem {sep : Char} {l : List Char} (h : sep ∉ l) :
    splitOnChar sep l = [l] := by
  induction l with
  | nil => rfl
  | cons c cs ih =>
    have hcs : sep ∉ cs := fun hm => h (List.mem_cons_of_mem _ hm)
    have hc : (c == sep) = false := by
      simp only [beq_eq_false_iff_ne, ne_eq]
      intro he
      exact h (he ▸ List.mem_cons_self c cs)
    simp only [splitOnChar, hc, Bool.false_eq_true, if_false, ih hcs]

theorem splitOnChar_append {sep : Char} {l₁ : List Char} (h : sep ∉ l₁)
    (l₂ : List Char) :
    splitOnChar sep (l₁ ++ sep :: l₂) = l₁ :: splitOnChar sep l₂ := by
  induction l₁ with
  | nil =>
    simp only [List.nil_append, splitOnChar, beq_self_eq_true, if_true]
  | cons c cs ih =>
    have hcs : sep ∉ cs := fun hm => h (List.mem_cons_of_mem _ hm)
    have hc : (c == sep) = false := by
      simp only [beq_eq_false_iff_ne, ne_eq]
      intro he
      exact h (he ▸ List.mem_cons_self c cs)
    simp only [List.cons_append, splitOnChar, hc, Bool.false_eq_true, if_false,
      List.append_eq, ih hcs]

/-! ## Helper lemmas: the rendered `dd/MM/yyyy` string -/

theorem natDigits_le_two {n : Nat} (h : n < 100) : (natDigits n).length ≤ 2 :=
  natDigits_length_le (k := 2) (lt_of_lt_of_le h (by norm_num)) (by omega)

theorem natDigits_le_four {n : Nat} (h : n < 10000) : (natDigits n).length ≤ 4 :=
  natDigits_length_le (k := 4) (lt_of_lt_of_le h (by norm_num)) (by omega)

theorem natDigits_eq_four {n : Nat} (h1 : 1000 ≤ n) (h2 : n ≤ 9999) :
    (natDigits n).length = 4 := by
  have hle := natDigits_le_four (n := n) (by omega)
  have hge := natDigits_length_lt (k := 3) (n := n) (le_trans (by norm_num) h1)
  omega

theorem slash_not_mem_pad (k n : Nat) : '/' ∉ padLeft k (natDigits n) :=
  allDigits_not_mem (padLeft_allDigits k (natDigits_allDigits n)) (by rfl)

theorem splitOnChar_formatChars (d : JSDate) :
    splitOnChar '/' (formatDDMMYYYYChars d) =
      [padLeft 2 (natDigits d.day), padLeft 2 (natDigits d.month),
        padLeft 4 (natDigits (eraYear d.year))] := by
  unfold formatDDMMYYYYChars
  rw [splitOnChar_append (slash_not_mem_pad 2 d.day),
    splitOnChar_append (slash_not_mem_pad 2 d.month),
    splitOnChar_not_mem (slash_not_mem_pad 4 (eraYear d.year))]

theorem formatChars_class (d : JSDate) :
    ∀ c ∈ formatDDMMYYYYChars d, isDigitB c = true ∨ c = '/' := by
  intro c hc
  unfold formatDDMMYYYYChars at hc
  simp only [List.mem_append, List.mem_cons] at hc
  rcases hc with hA | hB | hB | hC
  · exact Or.inl (List.all_eq_true.mp (padLeft_allDigits 2 (natDigits_allDigits d.day)) c hA)
  · exact Or.inr hB
  · exact Or.inl (List.all_eq_true.mp (padLeft_allDigits 2 (natDigits_allDigits d.month)) c hB)
  · rcases hC with hC | hC
    · exact Or.inr hC
    · exact Or.inl (List.all_eq_true.mp
        (padLeft_allDigits 4 (natDigits_allDigits (eraYear d.year))) c hC)

theorem formatChars_not_ws (d : JSDate) :
    ∀ c ∈ formatDDMMYYYYChars d, isWsB c = false := by
  intro c hc
  rcases formatChars_class d c hc with h | h
  · exact isDigitB_not_ws h
  · rw [h]
    rfl

theorem formatChars_length (d : JSDate) (hday : d.day < 100) (hmon : d.month < 100)
    (hy : eraYear d.year < 10000) : (formatDDMMYYYYChars d).length = 10 := by
  unfold formatDDMMYYYYChars
  rw [List.length_append, List.length_cons, List.length_append, List.length_cons,
    padLeft_length (natDigits_le_two hday), padLeft_length (natDigits_le_two hmon),
    padLeft_length (natDigits_le_four hy)]

theorem daysInMonth_le_31 (y : Int) (m : Nat) : daysInMonth y m ≤ 31 := by
  unfold daysInMonth
  split <;> first | omega | (split <;> omega)

theorem sentinelB_false_of_length {t : List Char} (h0 : t.length ≠ 0)
    (h1 : t.length ≠ 1) (h3 : t.length ≠ 3) (h7 : t.length ≠ 7)
    (h16 : t.length ≠ 16) (h20 : t.length ≠ 20) : sentinelB t = false := by
  simp only [sentinelB, Bool.or_eq_false_iff]
  refine ⟨⟨⟨⟨⟨?_, ?_⟩, ?_⟩, ?_⟩, ?_⟩, ?_⟩
  · refine beq_eq_false_iff_ne.mpr (ne_of_length_ne ?_)
    rw [toUpperChars_length, show ("#VALUE!".data).length = 7 from rfl]
    exact h7
  · refine beq_eq_false_iff_ne.mpr (ne_of_length_ne ?_)
    rw [show ("-".data).length = 1 from rfl]
    exact h1
  · refine beq_eq_false_iff_ne.mpr (ne_of_length_ne ?_)
    rw [show ([] : List Char).length = 0 from rfl]
    exact h0
  · refine beq_eq_false_iff_ne.mpr (ne_of_length_ne ?_)
    rw [show ("Data no especificada".data).length = 20 from rfl]
    exact h20
  · refine beq_eq_false_iff_ne.mpr (ne_of_length_ne ?_)
    rw [show ("Data Desconeguda".data).length = 16 from rfl]
    exact h16
  · refine beq_eq_false_iff_ne.mpr (ne_of_length_ne ?_)
    rw [show ("N/A".data).length = 3 from rfl]
    exact h3

theorem eraYear_of_pos {y : Int} (h : 1 ≤ y) : (eraYear y : Int) = y := by
  unfold eraYear
  rw [if_pos (by omega)]
  omega

theorem tryDDMMYYYY_format (d : JSDate) (hv : d.validB = true) (h1 : 1 ≤ d.year)
    (h2 : d.year ≤ 9999) : tryDDMMYYYY (formatDDMMYYYYChars d) = some d := by
  have hvd := hv
  unfold JSDate.validB validYMD at hvd
  simp only [Bool.and_eq_true, decide_eq_true_eq] at hvd
  obtain ⟨⟨⟨hm1, hm2⟩, hd1⟩, hd2⟩ := hvd
  have hylo : (1 : Nat) ≤ eraYear d.year := by
    unfold eraYear
    rw [if_pos (by omega)]
    omega
  have hyhi : eraYear d.year ≤ 9999 := by
    unfold eraYear
    rw [if_pos (by omega)]
    omega
  unfold tryDDMMYYYY
  simp only [splitOnChar_formatChars]
  rw [if_pos]
  · rw [digitsToNat_padLeft, digitsToNat_padLeft, digitsToNat_padLeft,
      digitsToNat_natDigits, digitsToNat_natDigits, digitsToNat_natDigits]
    unfold dateFnsParseDMY
    rw [eraYear_of_pos h1,
      if_pos (show validYMD d.year d.month d.day = true from hv)]
  · have h31 := daysInMonth_le_31 d.year d.month
    refine ⟨?_, ?_, ?_, ?_, ?_, ?_, ?_, ?_⟩
    · rw [padLeft_length (natDigits_le_two (by omega))]
      omega
    · rw [padLeft_length (natDigits_le_two (by omega))]
    · exact padLeft_allDigits 2 (natDigits_allDigits d.day)
    · rw [padLeft_length (natDigits_le_two (by omega))]
      omega
    · rw [padLeft_length (natDigits_le_two (by omega))]
    · exact padLeft_allDigits 2 (natDigits_allDigits d.month)
    · exact padLeft_length (natDigits_le_four (by omega))
    · exact padLeft_allDigits 4 (natDigits_allDigits (eraYear d.year))

theorem parse_format_roundtrip (now d : JSDate) (hv : d.validB = true)
    (h1 : 1 ≤ d.year) (h2 : d.year ≤ 9999) :
    parseCustomDateStringC now (formatDDMMYYYYChars d) = some d := by
  have hvd := hv
  unfold JSDate.validB validYMD at hvd
  simp only [Bool.and_eq_true, decide_eq_true_eq] at hvd
  obtain ⟨⟨⟨hm1, hm2⟩, hd1⟩, hd2⟩ := hvd
  have h31 := daysInMonth_le_31 d.year d.month
  have hylt : eraYear d.year < 10000 := by
    unfold eraYear
    rw [if_pos (by omega)]
    omega
  have hlen := formatChars_length d (by omega) (by omega) hylt
  have hsent : sentinelB (formatDDMMYYYYChars d) = false := by
    refine sentinelB_false_of_length ?_ ?_ ?_ ?_ ?_ ?_ <;> omega
  unfold parseCustomDateStringC
  rw [if_neg (by intro he; rw [he] at hlen; simp at hlen)]
  rw [trimChars_eq_self (formatChars_not_ws d)]
  rw [if_neg (by rw [hsent]; simp)]
  rw [tryDDMMYYYY_format d hv h1 h2]

/-! ## Helper lemmas: the `new Date(string)` fallback on digit strings -/

theorem tryDDMMYYYY_no_slash {t : List Char} (h : '/' ∉ t) : tryDDMMYYYY t = none := by
  unfold tryDDMMYYYY
  rw [splitOnChar_not_mem h]

theorem tryDDMMYY_no_slash (refYear : Int) {t : List Char} (h : '/' ∉ t) :
    tryDDMMYY refYear t = none := by
  unfold tryDDMMYY
  rw [splitOnChar_not_mem h]

theorem tryISO_no_dash {t : List Char} (h : '-' ∉ t) : tryISO t = none := by
  unfold tryISO
  rw [splitOnChar_not_mem h]

theorem jsNewDate_single {t : List Char} (h : '-' ∉ t) (hlen : t.length = 4)
    (hdig : allDigits t = true) :
    jsNewDate t = some ⟨(digitsToNat t : Int), 1, 1⟩ := by
  unfold jsNewDate
  simp only [splitOnChar_not_mem h]
  rw [if_pos ⟨hlen, hdig⟩]

/-- Shared core of C8: a purely numeric 4-digit string reaches the
`new Date(string)` fallback and is parsed as an ISO calendar year. -/
theorem parse_numeric_year (now : JSDate) (y : Nat) (h1 : 1000 ≤ y) (h2 : y ≤ 9999) :
    parseCustomDateStringC now (natDigits y) = some ⟨(y : Int), 1, 1⟩ := by
  have hlen := natDigits_eq_four h1 h2
  have hdig := natDigits_allDigits y
  have hne : natDigits y ≠ [] := natDigits_ne_nil y
  have hnws : ∀ c ∈ natDigits y, isWsB c = false := fun c hc =>
    isDigitB_not_ws (List.all_eq_true.mp hdig c hc)
  have hslash : '/' ∉ natDigits y := allDigits_not_mem hdig (by rfl)
  have hdash : '-' ∉ natDigits y := allDigits_not_mem hdig (by rfl)
  have hsent : sentinelB (natDigits y) = false := by
    refine sentinelB_false_of_length ?_ ?_ ?_ ?_ ?_ ?_ <;> omega
  unfold parseCustomDateStringC
  rw [if_neg hne]
  rw [trimChars_eq_self hnws]
  rw [if_neg (by rw [hsent]; simp)]
  rw [tryDDMMYYYY_no_slash hslash, tryDDMMYY_no_slash now.year hslash,
    tryISO_no_dash hdash, jsNewDate_single hdash hlen hdig, digitsToNat_natDigits]

/-! ## Helper lemmas: header scan state preservation -/

theorem headerScanStep_termini {i : Nat} {l : List Char} {st : ScanState} {c : Nat}
    (h : st.termini = some c) : ((headerScanStep i l st).1).termini = some c := by
  simp only [headerScanStep, h, pickCol]
  split <;> rfl

theorem headerScanStep_content {i : Nat} {l : List Char} {st : ScanState} {c : Nat}
    (h : st.content = some c) : ((headerScanStep i l st).1).content = some c := by
  simp only [headerScanStep, h, pickCol]
  split <;> rfl

theorem headerScanStep_dueDate {i : Nat} {l : List Char} {st : ScanState} {c : Nat}
    (h : st.dueDate = some c) : ((headerScanStep i l st).1).dueDate = some c := by
  simp only [headerScanStep, h, pickCol]
  split <;> rfl

theorem headerScanGo_termini {L : List (List Char)} {i : Nat} {st : ScanState} {c : Nat}
    (h : st.termini = some c) : (headerScanGo i L st).termini = some c := by
  induction L generalizing i st with
  | nil => exact h
  | cons l rest ih =>
    simp only [headerScanGo]
    split
    · exact ih h
    · split
      · exact headerScanStep_termini h
      · exact ih (headerScanStep_termini h)

theorem headerScanGo_content {L : List (List Char)} {i : Nat} {st : ScanState} {c : Nat}
    (h : st.content = some c) : (headerScanGo i L st).content = some c := by
  induction L generalizing i st with
  | nil => exact h
  | cons l rest ih =>
    simp only [headerScanGo]
    split
    · exact ih h
    · split
      · exact headerScanStep_content h
      · exact ih (headerScanStep_content h)

theorem headerScanGo_dueDate {L : List (List Char)} {i : Nat} {st : ScanState} {c : Nat}
    (h : st.dueDate = some c) : (headerScanGo i L st).dueDate = some c := by
  induction L generalizing i st with
  | nil => exact h
  | cons l rest ih =>
    simp only [headerScanGo]
    split
    · exact ih h
    · split
      · exact headerScanStep_dueDate h
      · exact ih (headerScanStep_dueDate h)

/-! ## Helper lemmas: blank-line prefixes and miscellany -/

theorem headerScanGo_replicate_blank (k : Nat) :
    ∀ (i : Nat) (L : List (List Char)) (st : ScanState),
      headerScanGo i (List.replicate k [] ++ L) st = headerScanGo (i + k) L st := by
  induction k with
  | zero =>
    intro i L st
    simp
  | succ k ih =>
    intro i L st
    rw [List.replicate_succ, List.cons_append]
    simp only [headerScanGo]
    rw [if_pos (show blankRow [] = true from rfl), ih (i + 1) L st]
    congr 1
    omega

theorem strAppend_assoc (a b c : String) : a ++ b ++ c = a ++ (b ++ c) := by
  obtain ⟨la⟩ := a
  obtain ⟨lb⟩ := b
  obtain ⟨lc⟩ := c
  show String.mk ((la ++ lb) ++ lc) = String.mk (la ++ (lb ++ lc))
  rw [List.append_assoc]

theorem csvNeedsQuote_format (d : JSDate) :
    csvNeedsQuote (formatDDMMYYYYChars d) = false := by
  unfold csvNeedsQuote
  simp only [List.any_eq_false]
  intro c hc hcontra
  simp only [Bool.or_eq_true, beq_iff_eq] at hcontra
  rcases formatChars_class d c hc with h | h
  · simp only [isDigitB, Bool.and_eq_true, decide_eq_true_eq] at h
    rcases hcontra with (he | he) | he <;> exact absurd (he ▸ h) (by decide)
  · subst h
    rcases hcontra with (he | he) | he <;> exact absurd he (by decide)

/-! ## Claim C1 -/

/-- C1 (amended): for every valid concrete date `d` whose year lies in
1..9999, rendering `d` in the canonical `dd/MM/yyyy` export format (exactly
as `exportTasksToCSV` / `escapeCsvCell` render a `Date`-valued
`originalDueDate`) and normalizing the rendered text with
`parseCustomDateString` yields a concrete date with the same calendar year,
month and day as `d`. -/
theorem c1_roundtrip_amended (now d : JSDate) (hv : d.validB = true)
    (h1 : 1 ≤ d.year) (h2 : d.year ≤ 9999) :
    parseCustomDateString now (formatDDMMYYYY d) = some d ∧
    escapeCsvCellC now (CsvCell.date d) = formatDDMMYYYYChars d := by
  constructor
  · exact parse_format_roundtrip now d hv h1 h2
  · show csvEscape (formatDDMMYYYYChars d) = formatDDMMYYYYChars d
    unfold csvEscape
    rw [if_neg (by rw [csvNeedsQuote_format]; simp)]

/-- C1 (witness): the round trip at 15 March 2024. -/
theorem c1_roundtrip_witness :
    (⟨2024, 3, 15⟩ : JSDate).validB = true ∧
    parseCustomDateString nowRef (formatDDMMYYYY ⟨2024, 3, 15⟩) =
      some ⟨2024, 3, 15⟩ :=
  ⟨by decide,
    (c1_roundtrip_amended nowRef ⟨2024, 3, 15⟩ (by decide) (by norm_num)
      (by norm_num)).1⟩

/-- C1 (counterexample): the claim quantifies over every Concrete DateValue,
but year 0 — a valid concrete date a JavaScript `Date` can hold — renders as
the era year `"01/01/0001"` and re-parses to year 1, and year 10000 renders
with five year digits, which no recognized parse format accepts. -/
theorem c1_roundtrip_cex :
    (⟨0, 1, 1⟩ : JSDate).validB = true ∧
    formatDDMMYYYY ⟨0, 1, 1⟩ = "01/01/0001" ∧
    parseCustomDateString nowRef (formatDDMMYYYY ⟨0, 1, 1⟩) = some ⟨1, 1, 1⟩ ∧
    some (⟨1, 1, 1⟩ : JSDate) ≠ some (⟨0, 1, 1⟩ : JSDate) ∧
    (⟨10000, 3, 15⟩ : JSDate).validB = true ∧
    parseCustomDateString nowRef (formatDDMMYYYY ⟨10000, 3, 15⟩) = none :=
  ⟨by decide, by decide, by decide, by decide, by decide, by decide⟩

/-! ## Claim C2 -/

/-- C2: on the five example input lines, `parseTaskFile` returns exactly one
candidate record, with `terminiRaw = "7"`, `content = "Submit report"` and
`originalDueDate` the concrete date 15 March 2024; the blank line, the junk
line, the header line, and the empty trailing row produce no records.  (The
result is independent of the reference date `now`.) -/
theorem c2_example_extraction (now : JSDate) :
    parseTaskFileLines now
      ["", "Junk,Junk,Junk", "#TERMINI,#DOCUMENTS/ACCIONS,#DATA A FER",
        "7,Submit report,15/03/2024", ",,"] =
    .ok [{ content := "Submit report",
           originalDueDate := DateValue.date ⟨2024, 3, 15⟩,
           terminiRaw := "7",
           adjustedDate := DateValue.date ⟨2024, 3, 15⟩ }] := rfl

/-- C2 (witness): the extraction example evaluated at the fixed reference
clock. -/
theorem c2_example_extraction_witness :
    parseTaskFileLines nowRef
      ["", "Junk,Junk,Junk", "#TERMINI,#DOCUMENTS/ACCIONS,#DATA A FER",
        "7,Submit report,15/03/2024", ",,"] =
    .ok [{ content := "Submit report",
           originalDueDate := DateValue.date ⟨2024, 3, 15⟩,
           terminiRaw := "7",
           adjustedDate := DateValue.date ⟨2024, 3, 15⟩ }] :=
  c2_example_extraction nowRef

/-! ## Claim C3 -/

/-- C3 (amended): date parsing is never a failure source.  For every
non-blank row whose content cell is non-empty, the extractor keeps the row
whatever the due-date cell holds, stores the same DateValue in both
`originalDueDate` and `adjustedDate`, and on parse failure that value is the
original cell text when the (trimmed) cell is non-empty — the empty cell is
replaced by the fixed placeholder `"Data no especificada"` rather than being
stored verbatim.  (`parseCustomDateString` is embedded as a total function:
the only throwing call in its body, `parseISO`, sits in a `try/catch`.) -/
theorem c3_date_never_fails_amended (now : JSDate) (tOpt : Option Nat)
    (ci di : Nat) (line : List Char) (hb : blankRow line = false)
    (hc : contentCellOf line ci ≠ []) :
    extractRow now tOpt ci di line =
      some ⟨String.mk (contentCellOf line ci),
        normalizeDueDate now (dueCellOf line di),
        String.mk (terminiCellOf line tOpt),
        normalizeDueDate now (dueCellOf line di)⟩ ∧
    (∀ d, parseCustomDateStringC now (dueCellOf line di) = some d →
      normalizeDueDate now (dueCellOf line di) = DateValue.date d) ∧
    (parseCustomDateStringC now (dueCellOf line di) = none →
      dueCellOf line di ≠ [] →
      normalizeDueDate now (dueCellOf line di) =
        DateValue.str (String.mk (dueCellOf line di))) ∧
    normalizeDueDate now [] = DateValue.str "Data no especificada" := by
  refine ⟨?_, ?_, ?_, rfl⟩
  · unfold extractRow
    rw [if_neg (by rw [hb]; simp), if_neg hc]
  · intro d h
    unfold normalizeDueDate
    rw [h]
  · intro h hne
    unfold normalizeDueDate
    rw [h]
    rw [if_neg hne]

/-- C3 (witness): a row with an unparseable, non-empty date cell is kept,
with the cell text stored verbatim. -/
theorem c3_date_never_fails_witness :
    blankRow ("1,Task,not a date".data) = false ∧
    contentCellOf ("1,Task,not a date".data) 1 ≠ [] ∧
    extractRow nowRef (some 0) 1 2 ("1,Task,not a date".data) =
      some ⟨String.mk (contentCellOf ("1,Task,not a date".data) 1),
        normalizeDueDate nowRef (dueCellOf ("1,Task,not a date".data) 2),
        String.mk (terminiCellOf ("1,Task,not a date".data) (some 0)),
        normalizeDueDate nowRef (dueCellOf ("1,Task,not a date".data) 2)⟩ :=
  ⟨by decide, by decide,
    (c3_date_never_fails_amended nowRef (some 0) 1 2 ("1,Task,not a date".data)
      (by decide) (by decide)).1⟩

/-- C3 (counterexample): with an empty due-date cell the row is kept, but
`originalDueDate` stores the fixed placeholder `"Data no especificada"`, not
the original cell text `""`. -/
theorem c3_empty_cell_cex :
    parseTaskFileLines nowRef
      ["#TERMINI,#DOCUMENTS/ACCIONS,#DATA A FER", "1,Task,"] =
    .ok [{ content := "Task",
           originalDueDate := DateValue.str "Data no especificada",
           terminiRaw := "1",
           adjustedDate := DateValue.str "Data no especificada" }] ∧
    ("Data no especificada" : String) ≠ "" := ⟨rfl, by decide⟩

/-! ## Claim C4 -/

/-- C4 (amended): the serializer emits exactly one header line with the
canonical spellings, then one row per record in input order; the due-date
cell is `originalDueDate` rendered `dd/MM/yyyy` when it is a concrete Date
and the stored string when it is a placeholder — but every string cell is
then passed through `escapeCsvCell`, which keeps it verbatim only when it is
a known placeholder or does not itself parse as a date, and which quotes any
cell containing a comma, newline or quote. -/
theorem c4_serializer_amended (now : JSDate) (tasks : List Task) :
    exportTasksToCSV now tasks =
      joinWith "\n" (canonicalHeaderLine :: tasks.map (exportRow now)) ∧
    canonicalHeaderLine = "#TERMINI,#DOCUMENTS/ACCIONS,#DATA A FER" ∧
    (∀ (t : Task) (d : JSDate), t.originalDueDate = DateValue.date d →
      dueDateExportValue t = formatDDMMYYYY d) ∧
    (∀ (t : Task) (s : String), t.originalDueDate = DateValue.str s →
      dueDateExportValue t = s) ∧
    (∀ s : String, knownPlaceholderB s = true →
      escapeCsvCellC now (CsvCell.str s) = csvEscape s.data) ∧
    (∀ s : String, knownPlaceholderB s = false →
      parseCustomDateStringC now s.data = none →
      escapeCsvCellC now (CsvCell.str s) = csvEscape s.data) ∧
    (∀ cs : List Char, csvNeedsQuote cs = false → csvEscape cs = cs) := by
  refine ⟨rfl, rfl, ?_, ?_, ?_, ?_, ?_⟩
  · intro t d h
    unfold dueDateExportValue
    rw [h]
  · intro t s h
    unfold dueDateExportValue
    rw [h]
  · intro s h
    simp only [escapeCsvCellC]
    rw [if_pos h]
  · intro s h hp
    simp only [escapeCsvCellC]
    rw [if_neg (by rw [h]; simp), hp]
  · intro cs h
    unfold csvEscape
    rw [if_neg (by rw [h]; simp)]

/-- C4 (witness): a task whose `originalDueDate` is a concrete date exports
that date in `dd/MM/yyyy` form. -/
theorem c4_serializer_witness :
    dueDateExportValue
        ⟨"Submit report", "7", DateValue.date ⟨2024, 3, 15⟩,
          DateValue.date ⟨2024, 3, 15⟩⟩ =
      formatDDMMYYYY ⟨2024, 3, 15⟩ ∧
    canonicalHeaderLine = "#TERMINI,#DOCUMENTS/ACCIONS,#DATA A FER" :=
  ⟨(c4_serializer_amended nowRef []).2.2.1
      ⟨"Submit report", "7", DateValue.date ⟨2024, 3, 15⟩,
        DateValue.date ⟨2024, 3, 15⟩⟩ ⟨2024, 3, 15⟩ rfl,
    (c4_serializer_amended nowRef []).2.1⟩

/-- C4 (counterexample): a string-valued `originalDueDate` is not emitted
verbatim when it parses as a date — `"2024-03-15"` is re-rendered as
`"15/03/2024"` by `escapeCsvCell`. -/
theorem c4_reformat_cex :
    exportTasksToCSV nowRef
        [⟨"y", "x", DateValue.str "2024-03-15", DateValue.str "2024-03-15"⟩] =
      "#TERMINI,#DOCUMENTS/ACCIONS,#DATA A FER\nx,y,15/03/2024" ∧
    exportTasksToCSV nowRef
        [⟨"y", "x", DateValue.str "2024-03-15", DateValue.str "2024-03-15"⟩] ≠
      "#TERMINI,#DOCUMENTS/ACCIONS,#DATA A FER\nx,y,2024-03-15" :=
  ⟨rfl, by decide⟩

/-! ## Claim C5 -/

set_option maxRecDepth 8000 in
/-- C5 (amended): if, after the header scan, the Content or the DueDate
column remains unresolved, `parseTaskFile` throws a single error built by
`missingColumnsError`, whose text names exactly the missing critical
field(s) ("Contingut" / "Data a Fer") together with the searched name
variants — and no record list is returned.  An unresolved Termini column
alone does not fail the import (it is optional; `terminiRaw` then defaults
to "N/A"). -/
theorem c5_missing_headers_amended :
    (∀ (now : JSDate) (lines : List (List Char)), lines ≠ [] →
      (headerScan lines).content = none ∨ (headerScan lines).dueDate = none →
      parseTaskFileCore now lines =
        .error (missingColumnsError (headerScan lines).content.isNone
          (headerScan lines).dueDate.isNone)) ∧
    (∀ cm dm : Bool, (cm || dm) = true →
      hasSub "Contingut".data (missingColumnsError cm dm).data = cm ∧
      hasSub "Data a Fer".data (missingColumnsError cm dm).data = dm ∧
      hasSub "#DOCUMENTS/ACCIONS".data (missingColumnsError cm dm).data = cm ∧
      hasSub "#DATA A FER".data (missingColumnsError cm dm).data = dm) := by
  constructor
  · intro now lines hne hmiss
    simp only [parseTaskFileCore]
    rw [if_neg (fun h => hne (List.length_eq_zero.mp h))]
    rcases hmiss with h | h
    · cases hd : (headerScan lines).dueDate with
      | none => rw [h]
      | some di => rw [h]
    · cases hc : (headerScan lines).content with
      | none => rw [h]
      | some ci => rw [h]
  · intro cm dm hor
    cases cm <;> cases dm
    · exact absurd hor (by decide)
    · exact ⟨by decide, by decide, by decide, by decide⟩
    · exact ⟨by decide, by decide, by decide, by decide⟩
    · exact ⟨by decide, by decide, by decide, by decide⟩

/-- C5 (witness): a header-less input throws the error naming both missing
critical columns. -/
theorem c5_missing_headers_witness :
    (["Junk".data] : List (List Char)) ≠ [] ∧
    (headerScan ["Junk".data]).content = none ∧
    parseTaskFileCore nowRef ["Junk".data] =
      .error (missingColumnsError (headerScan ["Junk".data]).content.isNone
        (headerScan ["Junk".data]).dueDate.isNone) :=
  ⟨by decide, rfl,
    c5_missing_headers_amended.1 nowRef ["Junk".data] (by decide) (Or.inl rfl)⟩

/-- C5 (counterexample): the claim says an unresolved Termini field also
makes `parseTaskFile` throw, but an input whose header row lacks any Termini
variant imports successfully (with `terminiRaw = "N/A"`). -/
theorem c5_termini_optional_cex :
    (headerScan (["#DOCUMENTS/ACCIONS,#DATA A FER", "Task,15/03/2024"].map
      String.data)).termini = none ∧
    parseTaskFileLines nowRef ["#DOCUMENTS/ACCIONS,#DATA A FER", "Task,15/03/2024"] =
      .ok [{ content := "Task",
             originalDueDate := DateValue.date ⟨2024, 3, 15⟩,
             terminiRaw := "N/A",
             adjustedDate := DateValue.date ⟨2024, 3, 15⟩ }] := ⟨rfl, rfl⟩

/-! ## Claim C6 -/

/-- C6 (amended): the header locator scans at most the first 20 physical
lines of the input — blank lines inside that window are skipped for matching
but still consume scan positions.  Consequently a canonical header row
preceded by `k < 20` blank lines is always located (all three columns
resolve, at row `k`); a header row preceded by 20 or more lines is outside
the window (see the counterexample). -/
theorem c6_scan_window_amended (k : Nat) (rest : List (List Char)) (hk : k < 20) :
    headerScan (List.replicate k [] ++
        "#TERMINI,#DOCUMENTS/ACCIONS,#DATA A FER".data :: rest) =
      ⟨some 0, some 1, some 2, (k : Int)⟩ := by
  unfold headerScan
  rw [List.take_append_eq_append_take, List.length_replicate, List.take_replicate,
    min_eq_right (by omega : k ≤ 20), show 20 - k = (19 - k) + 1 by omega,
    List.take_succ_cons, headerScanGo_replicate_blank k 0 _ initScan]
  have hstep : headerScanStep k ("#TERMINI,#DOCUMENTS/ACCIONS,#DATA A FER".data)
      initScan = (⟨some 0, some 1, some 2, (k : Int)⟩, true) := rfl
  simp only [headerScanGo, Nat.zero_add]
  rw [if_neg (show ¬blankRow ("#TERMINI,#DOCUMENTS/ACCIONS,#DATA A FER".data) = true
    by decide)]
  rw [hstep]
  rfl

/-- C6 (witness): the header line after five blank lines is located at
row 5. -/
theorem c6_scan_window_witness :
    (5 : Nat) < 20 ∧
    headerScan (List.replicate 5 [] ++
        "#TERMINI,#DOCUMENTS/ACCIONS,#DATA A FER".data :: []) =
      ⟨some 0, some 1, some 2, (5 : Int)⟩ :=
  ⟨by omega, c6_scan_window_amended 5 [] (by omega)⟩

/-- C6 (counterexample): the claim counts 20 *non-blank* lines, but the scan
window is 20 *physical* lines: a header row that is the very first non-blank
line, preceded by 20 blank lines, is never scanned and the import fails. -/
theorem c6_blank_prefix_cex :
    isOkB (parseTaskFileLines nowRef (List.replicate 20 "" ++
      ["#TERMINI,#DOCUMENTS/ACCIONS,#DATA A FER", "7,Submit report,15/03/2024"])) =
      false := rfl

/-! ## Claim C7 -/

/-- C7 (amended): for every input in the sentinel set (`#VALUE!`
case-insensitively, a dash, the empty string, and the fixed known non-date
strings), `parseCustomDateString` refuses to parse and the extractor stores
a Placeholder — the original text verbatim whenever it is non-empty, but the
empty string is replaced by the fixed default `"Data no especificada"`. -/
theorem c7_sentinel_amended (now : JSDate) (s : String)
    (h1 : sentinelB (trimChars s.data) = true) (h2 : s ≠ "") :
    normalizeDueDate now s.data = DateValue.str s ∧
    normalizeDueDate now [] = DateValue.str "Data no especificada" := by
  constructor
  · have hdata : s.data ≠ [] := by
      intro he
      apply h2
      obtain ⟨l⟩ := s
      simp only at he
      rw [he]
    have hp : parseCustomDateStringC now s.data = none := by
      unfold parseCustomDateStringC
      rw [if_neg hdata]
      simp [h1]
    unfold normalizeDueDate
    rw [hp, if_neg hdata]
  · rfl

/-- C7 (witness): the dash sentinel is stored verbatim. -/
theorem c7_sentinel_witness :
    sentinelB (trimChars ("-".data)) = true ∧
    normalizeDueDate nowRef ("-".data) = DateValue.str "-" :=
  ⟨by decide, (c7_sentinel_amended nowRef "-" (by decide) (by decide)).1⟩

/-- C7 (counterexample): for the empty string — which the claim includes in
the sentinel set and requires to be stored verbatim — the stored placeholder
is `"Data no especificada"`, not the empty string. -/
theorem c7_empty_string_cex :
    normalizeDueDate nowRef [] = DateValue.str "Data no especificada" ∧
    DateValue.str "Data no especificada" ≠ DateValue.str "" := ⟨rfl, by decide⟩

/-! ## Claim C8 -/

/-- C8 (amended): purely numeric date-cell text is *not* interpreted as a
spreadsheet serial number; it reaches the `new Date(string)` fallback, so a
4-digit numeric string is parsed as an ISO calendar year and yields the
concrete date January 1 of that year.  (Other purely numeric strings fall
into the host parser's implementation-defined territory, modelled here as
unparseable.) -/
theorem c8_numeric_amended (now : JSDate) (y : Nat) (h1 : 1000 ≤ y)
    (h2 : y ≤ 9999) :
    parseCustomDateString now (String.mk (natDigits y)) = some ⟨(y : Int), 1, 1⟩ :=
  parse_numeric_year now y h1 h2

/-- C8 (witness): `"2024"` parses as January 1, 2024. -/
theorem c8_numeric_witness :
    String.mk (natDigits 2024) = "2024" ∧
    parseCustomDateString nowRef (String.mk (natDigits 2024)) =
      some ⟨2024, 1, 1⟩ :=
  ⟨by decide, c8_numeric_amended nowRef 2024 (by omega) (by omega)⟩

set_option maxRecDepth 8000 in
/-- C8 (counterexample): the numeric text `"2024"` yields January 1 2024 —
not the spreadsheet-serial date (December 30 1899 plus 2024 days, i.e.
July 16 1905) that the claim prescribes. -/
theorem c8_serial_cex :
    parseCustomDateString nowRef "2024" = some ⟨2024, 1, 1⟩ ∧
    specSerialToDate 2024 = ⟨1905, 7, 16⟩ ∧
    (⟨2024, 1, 1⟩ : JSDate) ≠ ⟨1905, 7, 16⟩ := ⟨rfl, by decide, by decide⟩

/-! ## Claim C9 -/

/-- C9: header indices, once located, are never overwritten — from any scan
state in which a field's column index is already set, no further scanned
line (anywhere in the loop) changes that index. -/
theorem c9_never_overwritten (L : List (List Char)) (i : Nat) (st : ScanState) :
    (∀ c, st.termini = some c → (headerScanGo i L st).termini = some c) ∧
    (∀ c, st.content = some c → (headerScanGo i L st).content = some c) ∧
    (∀ c, st.dueDate = some c → (headerScanGo i L st).dueDate = some c) :=
  ⟨fun _ h => headerScanGo_termini h, fun _ h => headerScanGo_content h,
    fun _ h => headerScanGo_dueDate h⟩

/-- C9 (witness): a Termini index fixed at column 5 survives a later line
that offers a different Termini match at column 0. -/
theorem c9_never_overwritten_witness :
    (⟨some 5, none, none, -1⟩ : ScanState).termini = some 5 ∧
    (headerScanGo 0 ["#TERMINI,#DOCUMENTS/ACCIONS,#DATA A FER".data]
      ⟨some 5, none, none, -1⟩).termini = some 5 :=
  ⟨rfl, (c9_never_overwritten ["#TERMINI,#DOCUMENTS/ACCIONS,#DATA A FER".data]
    0 ⟨some 5, none, none, -1⟩).1 5 rfl⟩

/-! ## Claim C10 -/

/-- C10: on export, `escapeCsvCell` re-parses every string-valued cell —
and `exportTasksToCSV` feeds the `terminiRaw` and `content` columns through
it, not only the due-date column.  A cell that parses under
`parseCustomDateString` is rewritten in `dd/MM/yyyy` form; only strings that
fail to parse (or are known placeholder strings) keep their text unaltered
before quoting. -/
theorem c10_export_reparse (now : JSDate) (s : String) (t : Task)
    (h : knownPlaceholderB s = false) :
    (∀ d, parseCustomDateStringC now s.data = some d →
      escapeCsvCellC now (CsvCell.str s) = csvEscape (formatDDMMYYYYChars d)) ∧
    (parseCustomDateStringC now s.data = none →
      escapeCsvCellC now (CsvCell.str s) = csvEscape s.data) ∧
    exportTasksToCSV now [t] =
      canonicalHeaderLine ++ "\n" ++ (escapeCsvCell now (CsvCell.str t.terminiRaw) ++
        "," ++ (escapeCsvCell now (CsvCell.str t.content) ++ "," ++
          escapeCsvCell now (CsvCell.str (dueDateExportValue t)))) := by
  refine ⟨?_, ?_, ?_⟩
  · intro d hd
    simp only [escapeCsvCellC]
    rw [if_neg (by rw [h]; simp), hd]
  · intro hd
    simp only [escapeCsvCellC]
    rw [if_neg (by rw [h]; simp), hd]
  · show (canonicalHeaderLine ++ "\n") ++
      ((escapeCsvCell now (CsvCell.str t.terminiRaw) ++ ",") ++
        ((escapeCsvCell now (CsvCell.str t.content) ++ ",") ++
          escapeCsvCell now (CsvCell.str (dueDateExportValue t)))) = _
    rw [strAppend_assoc, strAppend_assoc, strAppend_assoc]

/-- C10 (witness): the content-column string `"2024-03-15"` — not a due-date
cell — is rewritten to `"15/03/2024"` on export. -/
theorem c10_export_reparse_witness :
    knownPlaceholderB "2024-03-15" = false ∧
    escapeCsvCellC nowRef (CsvCell.str "2024-03-15") =
      csvEscape (formatDDMMYYYYChars ⟨2024, 3, 15⟩) :=
  ⟨by decide,
    (c10_export_reparse nowRef "2024-03-15"
      ⟨"x", "y", DateValue.str "-", DateValue.str "-"⟩ (by decide)).1
      ⟨2024, 3, 15⟩ (by decide)⟩

end Studio
